import Mathlib

/-!
Shallow embedding of the conversation turn-processing pipeline of the
jarvis-NvidiaRiva repository: `src/chatbot.py` (`Chatbot.process_input`),
`src/command_handler.py` (`CommandHandler.handle_command`,
`CommandHandler.add_custom_command_handler`) and `src/translation.py`
(`Translator.detect_language`, `Translator.translate`,
`Translator.translate_to_english`, `Translator.translate_from_english`).

Python strings are modelled as Lean `String`; `str.lower()` is modelled on
the ASCII fragment by mapping `Char.toLower` over the characters (Lean's
`Char.toLower` lowers exactly the basic latin letters `A`..`Z`, which is
Python's behaviour on ASCII text).  Python's substring test `pat in s` is
modelled by an executable character-list containment check.  External
collaborators (the `langdetect` detector, the `googletrans` client and the
DialoGPT encode/generate/decode step) are parameters of the embedding,
returning `Except` to model the possibility of a raised exception.
-/

namespace Jarvis

/-- Python `str.lower()` on the ASCII fragment: lower every character. -/
def lowerStr (s : String) : String := ⟨s.data.map Char.toLower⟩

/-- Does the second character list occur as a first segment of the first? -/
def charsBeginWith : List Char → List Char → Bool
  | [], _ => true
  | _ :: _, [] => false
  | a :: as, b :: bs => a = b && charsBeginWith as bs

/-- Does `pat` occur as a contiguous segment of `s`?  (`charsContain s pat`). -/
def charsContain : List Char → List Char → Bool
  | s, pat =>
    match s with
    | [] => pat.isEmpty
    | _ :: rest => charsBeginWith pat s || charsContain rest pat

/-- Python's substring test `pat in s`. -/
def strContains (s pat : String) : Bool := charsContain s.data pat.data

/-- The trigger test of `CommandHandler.handle_command`
(`pattern.lower() in lowercase_input` with `lowercase_input = user_input.lower()`). -/
def matchesPattern (user_input pattern_text : String) : Bool :=
  strContains (lowerStr user_input) (lowerStr pattern_text)

/-- The `config["commands"]` table: exit phrases and the ordered custom-command
table (`command-type label ↦ trigger phrases`, in configuration order, as a
Python dict preserves insertion order). -/
structure CommandsConfig where
  exit_commands : List String
  custom_commands : List (String × List String)

/-- The mutable handler dispatch table `CommandHandler.builtin_handlers`:
a Python dict from command-type label to handler function, modelled as an
association list in insertion order. -/
abbrev Handlers : Type := List (String × (String → String))

/-- Python dict lookup `d[k]` / membership `k in d` on an association list. -/
def alistLookup (d : List (String × α)) (k : String) : Option α :=
  match d with
  | [] => none
  | (k', v) :: rest => if k' = k then some v else alistLookup rest k

/-- Python dict assignment `d[k] = v`: replace the value when the key is
present, append the binding otherwise. -/
def alistSet (d : List (String × α)) (k : String) (v : α) : List (String × α) :=
  match d with
  | [] => [(k, v)]
  | (k', v') :: rest => if k' = k then (k, v) :: rest else (k', v') :: alistSet rest k v

/-- Inner loop of `handle_command` (lines 64-71): scan one command-type's
trigger phrases; on a match, dispatch when the type has a registered handler
and keep scanning otherwise. -/
def handleCustomPatterns (handlers : Handlers) (command_type : String)
    (patterns : List String) (user_input lowercase_input : String) : Option String :=
  match patterns with
  | [] => none
  | p :: ps =>
    if strContains lowercase_input (lowerStr p) then
      match alistLookup handlers command_type with
      | some h => some (h user_input)
      | none => handleCustomPatterns handlers command_type ps user_input lowercase_input
    else handleCustomPatterns handlers command_type ps user_input lowercase_input

/-- Outer loop of `handle_command` (line 63): command-types in configuration
order. -/
def handleCustomCommands (handlers : Handlers) (custom_commands : List (String × List String))
    (user_input lowercase_input : String) : Option String :=
  match custom_commands with
  | [] => none
  | (command_type, patterns) :: rest =>
    match handleCustomPatterns handlers command_type patterns user_input lowercase_input with
    | some r => some r
    | none => handleCustomCommands handlers rest user_input lowercase_input

/-- `CommandHandler.handle_command` (src/command_handler.py, lines 43-74):
empty input is not a command; an input whose lowercasing is exactly a
configured exit phrase yields the farewell; otherwise the custom-command
table is scanned. -/
def handle_command (cms : CommandsConfig) (handlers : Handlers)
    (user_input : String) : Option String :=
  if user_input = "" then none
  else if lowerStr user_input ∈ cms.exit_commands then some "Goodbye!"
  else handleCustomCommands handlers cms.custom_commands user_input (lowerStr user_input)

/-- `CommandHandler.add_custom_command_handler` (src/command_handler.py,
lines 137-151): reject labels absent from `custom_commands`; otherwise write
the handler into the dispatch table. Returns the success flag together with
the resulting dispatch table. -/
def add_custom_command_handler (custom_commands : List (String × List String))
    (handlers : Handlers) (command_type : String) (handler_function : String → String) :
    Bool × Handlers :=
  if (alistLookup custom_commands command_type).isNone then (false, handlers)
  else (true, alistSet handlers command_type handler_function)

/-- `Translator.detect_language` (src/translation.py, lines 57-73): run the
external `langdetect.detect` call; on a raised exception return the default
language code. -/
def detect_language (detectExt : String → Except ε String) (default_language : String)
    (text : String) : String :=
  match detectExt text with
  | .ok lang => lang
  | .error _ => default_language

/-- `Translator.translate` (src/translation.py, lines 75-112): empty text maps
to `""`; a missing source language is auto-detected; equal source and target
skip the external call; a raised exception from the external `googletrans`
call yields the original text. -/
def translate (transExt : String → String → String → Except ε String)
    (detectExt : String → Except ε String) (default_language : String)
    (text : String) (source_lang : Option String) (target_lang : String) : String :=
  if text = "" then ""
  else
    let src := match source_lang with
      | none => detect_language detectExt default_language text
      | some s => s
    if src = target_lang then text
    else
      match transExt text src target_lang with
      | .ok translated => translated
      | .error _ => text

/-- `Translator.translate_to_english` (src/translation.py, lines 114-134):
detect the language; English text is returned unchanged, otherwise translate
to English. -/
def translate_to_english (transExt : String → String → String → Except ε String)
    (detectExt : String → Except ε String) (default_language : String)
    (text : String) : String × String :=
  let detected := detect_language detectExt default_language text
  if detected = "en" then (detected, text)
  else (detected, translate transExt detectExt default_language text (some detected) "en")

/-- `Translator.translate_from_english` (src/translation.py, lines 136-154):
target English is the identity, otherwise translate from English. -/
def translate_from_english (transExt : String → String → String → Except ε String)
    (detectExt : String → Except ε String) (default_language : String)
    (text : String) (target_lang : String) : String :=
  if target_lang = "en" then text
  else translate transExt detectExt default_language text (some "en") target_lang

/-- The configuration fields of `config.json` consumed by `process_input`:
`model.max_history`, `language.translation_enabled`, `language.default` and
the command table. -/
structure Config where
  commands : CommandsConfig
  max_history : Nat
  translation_enabled : Bool
  default_language : String

/-- The chatbot together with its external collaborators: configuration,
handler dispatch table, language detector, translation client, and the
generation backend (`tokenizer.encode` + `model.generate` +
`tokenizer.decode`, src/chatbot.py lines 95-122, abstracted to a call taking
the opaque `chat_history_ids` carry-over plus the new input text and
returning the decoded reply with the updated carry-over, or raising). -/
structure Env (ε Ctx : Type) where
  cfg : Config
  handlers : Handlers
  detectExt : String → Except ε String
  transExt : String → String → String → Except ε String
  gen : Option Ctx → String → Except ε (String × Ctx)

/-- The mutable state of a `Chatbot` touched by `process_input`:
`conversation_history` and `chat_history_ids` (initialised to `[]` and
`None` in `__init__`, src/chatbot.py lines 52-53). -/
structure ChatState (Ctx : Type) where
  conversation_history : List String
  chat_history_ids : Option Ctx
  deriving DecidableEq

/-- The history update of `process_input` (src/chatbot.py, lines 92-93):
`self.conversation_history = self.conversation_history[-max_history:]` when
the length exceeds `max_history`.  Python's slice `l[-k:]` is the whole list
when `k = 0` and the last `k` elements when `k ≥ 1`. -/
def trimHistory (max_history : Nat) (l : List String) : List String :=
  if l.length > max_history then
    (if max_history = 0 then l else l.drop (l.length - max_history))
  else l

/-- Lines 84-88 of `process_input`: the detected language (`None` when
translation never ran) and the pivot-normalized input text. -/
def detectedAndNormalized (env : Env ε Ctx) (user_input : String)
    (input_language : Option String) : Option String × String :=
  if env.cfg.translation_enabled ∧ input_language = none then
    let r := translate_to_english env.transExt env.detectExt env.cfg.default_language user_input
    (some r.1, r.2)
  else (input_language, user_input)

/-- The pivot-normalized utterance that `process_input` appends to the
conversation history. -/
def normalizedInput (env : Env ε Ctx) (user_input : String)
    (input_language : Option String) : String :=
  (detectedAndNormalized env user_input input_language).2

/-- Lines 124-127 of `process_input`: translate the reply back unless the
detected language is English or translation is disabled.  The
`detected = none` case is unreachable when translation is enabled; Python
would there hand `None` to the translation client, whose raised exception
`Translator.translate` swallows, returning the reply unchanged. -/
def finishResponse (env : Env ε Ctx) (detected : Option String) (response : String) : String :=
  if env.cfg.translation_enabled ∧ detected ≠ some "en" then
    match detected with
    | some lang =>
        translate_from_english env.transExt env.detectExt env.cfg.default_language response lang
    | none => response
  else response

/-- Lines 83-128 of `process_input`: the non-command path.  Translation,
history append + trim, generation (which may raise; the raise propagates but
the already-performed history mutation persists on the object), context
update and back-translation. -/
def processRest (env : Env ε Ctx) (st : ChatState Ctx) (user_input : String)
    (input_language : Option String) : Except ε String × ChatState Ctx :=
  let dn := detectedAndNormalized env user_input input_language
  let hist := trimHistory env.cfg.max_history (st.conversation_history ++ [dn.2])
  match env.gen st.chat_history_ids dn.2 with
  | .error e => (.error e, { st with conversation_history := hist })
  | .ok (reply, ctx2) =>
      (.ok (finishResponse env dn.1 reply),
       { conversation_history := hist, chat_history_ids := some ctx2 })

/-- `Chatbot.process_input` (src/chatbot.py, lines 76-128).  The Python
truthiness test `if command_response:` treats both `None` and the empty
string as "not a command". -/
def process_input (env : Env ε Ctx) (st : ChatState Ctx) (user_input : String)
    (input_language : Option String) : Except ε String × ChatState Ctx :=
  match handle_command env.cfg.commands env.handlers user_input with
  | some r => if r = "" then processRest env st user_input input_language else (.ok r, st)
  | none => processRest env st user_input input_language

/-- Does `process_input` short-circuit on this utterance (a truthy
`handle_command` result)? -/
def commandShortCircuits (env : Env ε Ctx) (user_input : String) : Bool :=
  match handle_command env.cfg.commands env.handlers user_input with
  | some r => decide (r ≠ "")
  | none => false

/-- A session's sequence of turns fed one by one through `process_input`
(each turn is the utterance with its optional caller-supplied language). -/
def runTurns (env : Env ε Ctx) (st : ChatState Ctx)
    (turns : List (String × Option String)) : ChatState Ctx :=
  match turns with
  | [] => st
  | t :: ts => runTurns env (process_input env st t.1 t.2).2 ts

/-- The last `k` elements of a list (all of it when it is shorter than `k`). -/
def lastK (k : Nat) (l : List α) : List α := l.drop (l.length - k)

/-- A language detector that always succeeds with English. -/
def detectEn : String → Except Nat String := fun _ => Except.ok "en"

/-- A language detector whose external call always raises. -/
def detectFail : String → Except Nat String := fun _ => Except.error 3

/-- A translation client that always succeeds with a fixed output. -/
def transOk : String → String → String → Except Nat String := fun _ _ _ => Except.ok "TR"

/-- A translation client whose external call always raises. -/
def transFail : String → String → String → Except Nat String := fun _ _ _ => Except.error 4

/-- A generation backend that always succeeds with a fixed reply. -/
def genOk : Option Nat → String → Except Nat (String × Nat) := fun _ _ => Except.ok ("GEN", 1)

/-- A generation backend that always raises. -/
def genFail : Option Nat → String → Except Nat (String × Nat) := fun _ _ => Except.error 7

/-- Concrete chatbot with `max_history = 0` and translation disabled. -/
def envHist0 : Env Nat Nat := ⟨⟨⟨[], []⟩, 0, false, "en"⟩, [], detectFail, transFail, genOk⟩

/-- Concrete chatbot with `max_history = 2` and translation disabled. -/
def envHist2 : Env Nat Nat := ⟨⟨⟨[], []⟩, 2, false, "en"⟩, [], detectFail, transFail, genOk⟩

/-- Concrete chatbot whose `"time"` command-type has a registered handler
returning the empty string. -/
def envEmptyHandler : Env Nat Nat :=
  ⟨⟨⟨[], [("time", ["time"])]⟩, 5, false, "en"⟩, [("time", fun _ => "")],
   detectFail, transFail, genOk⟩

/-- Concrete chatbot whose `"time"` command-type has a handler returning a
fixed non-empty string. -/
def envTimeHandler : Env Nat Nat :=
  ⟨⟨⟨["bye"], [("time", ["time"])]⟩, 5, false, "en"⟩, [("time", fun _ => "TIME")],
   detectFail, transFail, genOk⟩

/-- Concrete chatbot whose generation backend raises. -/
def envGenFail : Env Nat Nat := ⟨⟨⟨[], []⟩, 5, false, "en"⟩, [], detectFail, transFail, genFail⟩

example : strContains "tell me a joke about time" "time" = true := by decide
example : strContains "hello" "low" = false := by decide
example : lowerStr "Bye NOW" = "bye now" := by decide
example : handle_command ⟨["bye"], []⟩ [] "BYE" = some "Goodbye!" := by decide
example : handle_command ⟨["bye"], [("time", ["time"])]⟩ [("time", fun _ => "T")]
    "what time is it" = some "T" := by decide
example : handle_command ⟨["bye"], [("time", ["time"])]⟩ [] "what time is it" = none := by
  decide

/-! ### Translator claims -/

/-- Claim C5 (confirmed). Degrade-on-failure: when the external language
detection call raises, `detect_language` returns the default language code;
when every external translation call the translator could make raises,
`translate` returns the original text unchanged — neither propagates the
error. -/
theorem translator_degrades_on_failure {ε : Type}
    (transExt : String → String → String → Except ε String)
    (detectExt : String → Except ε String) (d text : String)
    (source_lang : Option String) (target_lang : String) (e e' : ε) :
    (detectExt text = Except.error e → detect_language detectExt d text = d)
    ∧ ((∀ b c, transExt text b c = Except.error e') →
        translate transExt detectExt d text source_lang target_lang = text) := by
  constructor
  · intro h
    simp [detect_language, h]
  · intro h
    by_cases ht : text = ""
    · simp [translate, ht]
    · simp only [translate, if_neg ht]
      by_cases hst : (match source_lang with
          | none => detect_language detectExt d text
          | some s => s) = target_lang
      · rw [if_pos hst]
      · rw [if_neg hst, h]

/-- Claim C5 witness: with failing external detection and translation,
the detector yields the default code and `translate` yields its input. -/
theorem translator_degrades_on_failure_witness :
    detect_language detectFail "en" "bonjour" = "en"
    ∧ translate transFail detectFail "en" "bonjour" none "es" = "bonjour" :=
  ⟨(translator_degrades_on_failure transFail detectFail "en" "bonjour" none "es" 3 4).1 rfl,
   (translator_degrades_on_failure transFail detectFail "en" "bonjour" none "es" 3 4).2
     (fun _ _ => rfl)⟩

/-- Claim C7 (confirmed). Pivot idempotence: text whose detected language is
English is returned unchanged by `translate_to_english` whatever the external
translation client would answer (so the external service is never consulted),
and `translate_from_english` with target `"en"` is the identity. -/
theorem pivot_idempotence {ε : Type}
    (transExt : String → String → String → Except ε String)
    (detectExt : String → Except ε String) (d text : String)
    (h : detect_language detectExt d text = "en") :
    translate_to_english transExt detectExt d text = ("en", text)
    ∧ ∀ t : String, translate_from_english transExt detectExt d t "en" = t := by
  constructor
  · simp [translate_to_english, h]
  · intro t
    simp [translate_from_english]

/-- Claim C7 witness: an always-English detector together with an external
client that would answer `"TR"`; the text still comes back unchanged. -/
theorem pivot_idempotence_witness :
    translate_to_english transOk detectEn "en" "hello" = ("en", "hello")
    ∧ translate_from_english transOk detectEn "en" "hola" "en" = "hola" :=
  ⟨(pivot_idempotence transOk detectEn "en" "hello" rfl).1,
   (pivot_idempotence transOk detectEn "en" "hello" rfl).2 "hola"⟩

/-! ### Command handler claims -/

/-- Claim C6 counterexample. The claim quantifies over every utterance; the
empty string is rejected by `handle_command` before the exit check
(`if not user_input: return None`), so when `""` is itself a configured exit
phrase the farewell is not returned. -/
theorem exit_precedence_counterexample :
    lowerStr "" ∈ (CommandsConfig.mk [""] []).exit_commands
    ∧ handle_command ⟨[""], []⟩ [] "" = none := by
  constructor
  · simp [lowerStr]
  · rfl

/-- Claim C6 (corrected: the utterance must be non-empty, since
`handle_command` returns `None` on the empty string before the exit check).
Every non-empty utterance whose lowercasing is a configured exit phrase gets
the farewell, whatever custom command-types (and handlers) are configured:
the exit check runs before any custom-command matching. -/
theorem exit_precedence (cms : CommandsConfig) (handlers : Handlers)
    (u : String) (hu : u ≠ "") (hmem : lowerStr u ∈ cms.exit_commands) :
    handle_command cms handlers u = some "Goodbye!" := by
  simp [handle_command, hu, hmem]

/-- Claim C6 witness: `"Bye"` is an exact exit phrase (after lowercasing) and
also contains the trigger phrase `"bye"` of the custom type `"greet"`; the
farewell wins. -/
theorem exit_precedence_witness :
    handle_command ⟨["bye"], [("greet", ["bye"])]⟩ [("greet", fun _ => "HI")] "Bye"
      = some "Goodbye!" :=
  exit_precedence ⟨["bye"], [("greet", ["bye"])]⟩ [("greet", fun _ => "HI")] "Bye"
    (by decide) (by decide)

/-- Looking up the key just written by a Python dict assignment. -/
theorem alistLookup_alistSet_self (d : List (String × α)) (k : String) (v : α) :
    alistLookup (alistSet d k v) k = some v := by
  induction d with
  | nil => simp [alistSet, alistLookup]
  | cons hd tl ih =>
      by_cases hk : hd.1 = k
      · simp [alistSet, alistLookup, hk]
      · simp [alistSet, alistLookup, hk, ih]

/-- A Python dict assignment leaves every other key's binding unchanged. -/
theorem alistLookup_alistSet_ne (d : List (String × α)) (k k' : String) (v : α)
    (h : k' ≠ k) : alistLookup (alistSet d k v) k' = alistLookup d k' := by
  have hne : ¬ k = k' := fun hh => h hh.symm
  induction d with
  | nil => simp [alistSet, alistLookup, hne]
  | cons hd tl ih =>
      by_cases hk : hd.1 = k
      · subst hk
        simp [alistSet, alistLookup, hne]
      · simp [alistSet, alistLookup, hk, ih]

/-- Claim C8 (confirmed). Fail-closed registration: a label absent from the
configured `custom_commands` table makes `add_custom_command_handler` report
failure and leave the dispatch table untouched; a present label installs (or
overrides) the handler under that label, reports success, and disturbs no
other label's binding. -/
theorem fail_closed_registration (custom_commands : List (String × List String))
    (handlers : Handlers) (command_type : String) (handler_function : String → String) :
    (alistLookup custom_commands command_type = none →
      add_custom_command_handler custom_commands handlers command_type handler_function
        = (false, handlers))
    ∧ ((alistLookup custom_commands command_type).isSome →
        add_custom_command_handler custom_commands handlers command_type handler_function
          = (true, alistSet handlers command_type handler_function)
        ∧ alistLookup (alistSet handlers command_type handler_function) command_type
            = some handler_function
        ∧ ∀ k, k ≠ command_type →
            alistLookup (alistSet handlers command_type handler_function) k
              = alistLookup handlers k) := by
  constructor
  · intro h
    simp [add_custom_command_handler, h]
  · intro h
    refine ⟨?_, alistLookup_alistSet_self _ _ _, fun k hk => alistLookup_alistSet_ne _ _ _ _ hk⟩
    simp [add_custom_command_handler, Option.isNone_iff_eq_none, Option.isSome_iff_ne_none.mp h]

/-- Claim C8 witness: registering under the configured label `"time"`
succeeds and installs the handler; registering under the unknown label
`"lights"` fails and returns the table unchanged. -/
theorem fail_closed_registration_witness :
    (add_custom_command_handler [("time", ["what time"])] [] "lights" (fun _ => "X")
        = (false, [])
      ∧ add_custom_command_handler [("time", ["what time"])] [] "time" (fun _ => "X")
        = (true, alistSet [] "time" (fun _ => "X")))
    ∧ alistLookup (alistSet ([] : Handlers) "time" (fun _ => "X")) "time"
        = some (fun _ => "X") := by
  refine ⟨⟨?_, ?_⟩, ?_⟩
  · exact (fail_closed_registration [("time", ["what time"])] [] "lights" (fun _ => "X")).1
      (by decide)
  · exact ((fail_closed_registration [("time", ["what time"])] [] "time" (fun _ => "X")).2
      (by decide)).1
  · exact ((fail_closed_registration [("time", ["what time"])] [] "time" (fun _ => "X")).2
      (by decide)).2.1

/-- `Char.ofNat` on a scalar value below the surrogate range keeps its
numeric value. -/
theorem char_toNat_ofNat_of_lt {n : Nat} (h : n < 55296) : (Char.ofNat n).toNat = n := by
  unfold Char.ofNat
  rw [dif_pos (Or.inl h)]
  rfl

/-- Lowercasing never produces a character in `A`..`Z`. -/
theorem toLower_toNat_not_upper (d : Char) :
    ¬(65 ≤ (Char.toLower d).toNat ∧ (Char.toLower d).toNat ≤ 90) := by
  simp only [Char.toLower]
  split
  next h => rw [char_toNat_ofNat_of_lt (by omega)]; omega
  next h => omega

/-- Claim C10 (confirmed; "uppercase letter" read as an ASCII letter
`A`..`Z`, the range Python's `str.lower` and the embedding agree on).
Exit detection lowercases only the utterance and compares it verbatim with
the configured list, so an exit phrase containing an uppercase letter can
never equal a lowercased utterance and `handle_command` behaves as if that
phrase were absent; trigger matching lowercases both sides, so it only
depends on the case-insensitive reading of the utterance and the pattern. -/
theorem exit_case_sensitivity (p : String) (c : Char) (hc : c ∈ p.data)
    (h65 : 65 ≤ c.toNat) (h90 : c.toNat ≤ 90) :
    (∀ u : String, lowerStr u ≠ p)
    ∧ (∀ (front back : List String) (custom : List (String × List String))
        (handlers : Handlers) (u : String),
        handle_command ⟨front ++ p :: back, custom⟩ handlers u
          = handle_command ⟨front ++ back, custom⟩ handlers u)
    ∧ ∀ u1 u2 q1 q2 : String, lowerStr u1 = lowerStr u2 → lowerStr q1 = lowerStr q2 →
        matchesPattern u1 q1 = matchesPattern u2 q2 := by
  have hlow : ∀ u : String, lowerStr u ≠ p := by
    intro u hu
    have hdata : u.data.map Char.toLower = p.data := congrArg String.data hu
    rw [← hdata] at hc
    obtain ⟨d, _, hd⟩ := List.mem_map.mp hc
    rw [← hd] at h65 h90
    exact toLower_toNat_not_upper d ⟨h65, h90⟩
  refine ⟨hlow, fun front back custom handlers u => ?_, fun u1 u2 q1 q2 e1 e2 => ?_⟩
  · by_cases hu : u = ""
    · simp [handle_command, hu]
    · have hmem : (lowerStr u ∈ front ++ p :: back) ↔ (lowerStr u ∈ front ++ back) := by
        simp only [List.mem_append, List.mem_cons]
        have := hlow u
        tauto
      by_cases hm : lowerStr u ∈ front ++ back
      · simp [handle_command, hu, hm, hmem.mpr hm]
      · have hm' : ¬ lowerStr u ∈ front ++ p :: back := fun hh => hm (hmem.mp hh)
        simp [handle_command, hu, hm, hm']
  · simp only [matchesPattern, e1, e2]

/-- Claim C10 witness: `"Bye"` as an exit phrase is dead (no lowercased
utterance equals it, and removing it from the exit list changes nothing),
while the trigger `"Time"` matches independently of case on either side. -/
theorem exit_case_sensitivity_witness :
    lowerStr "bye" ≠ "Bye"
    ∧ handle_command ⟨[] ++ "Bye" :: [], [("greet", ["hi"])]⟩ [] "bye"
        = handle_command ⟨[] ++ [], [("greet", ["hi"])]⟩ [] "bye"
    ∧ matchesPattern "WHAT TIME" "Time" = matchesPattern "what time" "time" :=
  ⟨(exit_case_sensitivity "Bye" 'B' (by decide) (by decide) (by decide)).1 "bye",
   (exit_case_sensitivity "Bye" 'B' (by decide) (by decide) (by decide)).2.1
     [] [] [("greet", ["hi"])] [] "bye",
   (exit_case_sensitivity "Bye" 'B' (by decide) (by decide) (by decide)).2.2
     "WHAT TIME" "what time" "Time" "time" (by decide) (by decide)⟩

/-- A command-type whose trigger phrases all miss the utterance dispatches
nothing. -/
theorem handleCustomPatterns_eq_none (handlers : Handlers) (command_type : String)
    (patterns : List String) (u lc : String)
    (hmiss : ∀ p ∈ patterns, strContains lc (lowerStr p) = false) :
    handleCustomPatterns handlers command_type patterns u lc = none := by
  induction patterns with
  | nil => rfl
  | cons p ps ih =>
      have hp := hmiss p (List.mem_cons_self p ps)
      simp only [handleCustomPatterns, hp, Bool.false_eq_true, if_false]
      exact ih fun q hq => hmiss q (List.mem_cons_of_mem p hq)

/-- A command-type with a registered handler and at least one matching
trigger phrase dispatches its handler on the original utterance. -/
theorem handleCustomPatterns_eq_some (handlers : Handlers) (command_type : String)
    (patterns : List String) (u lc : String) (h : String → String)
    (hh : alistLookup handlers command_type = some h)
    (hmatch : ∃ p ∈ patterns, strContains lc (lowerStr p) = true) :
    handleCustomPatterns handlers command_type patterns u lc = some (h u) := by
  induction patterns with
  | nil => simp at hmatch
  | cons p ps ih =>
      by_cases hp : strContains lc (lowerStr p) = true
      · simp [handleCustomPatterns, hp, hh]
      · obtain ⟨q, hq, hqm⟩ := hmatch
        have hq' : q ∈ ps := by
          rcases List.mem_cons.mp hq with rfl | hq'
          · exact absurd hqm hp
          · exact hq'
        simp only [handleCustomPatterns, hp, if_false]
        exact ih ⟨q, hq', hqm⟩

/-- Command-types whose triggers all miss are skipped by the scan. -/
theorem handleCustomCommands_append_of_miss (handlers : Handlers)
    (pre tail : List (String × List String)) (u lc : String)
    (hpre : ∀ entry ∈ pre, ∀ p ∈ entry.2, strContains lc (lowerStr p) = false) :
    handleCustomCommands handlers (pre ++ tail) u lc
      = handleCustomCommands handlers tail u lc := by
  induction pre with
  | nil => rfl
  | cons entry rest ih =>
      have hnone := handleCustomPatterns_eq_none handlers entry.1 entry.2 u lc
        (hpre entry (List.mem_cons_self entry rest))
      simp only [List.cons_append, handleCustomCommands, hnone]
      exact ih fun a ha => hpre a (List.mem_cons_of_mem entry ha)

/-- Claim C3 counterexample. The utterance contains trigger phrases of both
configured command-types (`"joke"` declared first, `"time"` second), yet —
`"joke"` having no registered handler, exactly the dispatch-table shape of
the source where `builtin_handlers` lacks the label — the scan continues to
the later type and invokes its handler, and with the later type removed the
utterance is not a command at all. -/
theorem first_match_wins_counterexample :
    handle_command ⟨[], [("joke", ["tell me a joke"]), ("time", ["time"])]⟩
        [("time", fun _ => "TIME")] "tell me a joke about time" = some "TIME"
    ∧ handle_command ⟨[], [("joke", ["tell me a joke"])]⟩
        [("time", fun _ => "TIME")] "tell me a joke about time" = none := by
  exact ⟨rfl, rfl⟩

/-- Claim C3 (corrected: the declared-first command-type must have a
registered handler; a matching type without one falls through to later
types, as the counterexample shows).  If no earlier-declared type has a
matching trigger and the first type with a matching trigger carries a
registered handler, `handle_command` returns that handler's output on the
original utterance — uniformly in whatever command-types follow, so no later
type influences the result. -/
theorem first_match_wins (exit_phrases : List String)
    (pre rest : List (String × List String)) (command_type : String)
    (patterns : List String) (handlers : Handlers) (h : String → String) (u : String)
    (hu : u ≠ "") (hexit : lowerStr u ∉ exit_phrases)
    (hpre : ∀ entry ∈ pre, ∀ p ∈ entry.2, strContains (lowerStr u) (lowerStr p) = false)
    (hmatch : ∃ p ∈ patterns, strContains (lowerStr u) (lowerStr p) = true)
    (hh : alistLookup handlers command_type = some h) :
    handle_command ⟨exit_phrases, pre ++ (command_type, patterns) :: rest⟩ handlers u
      = some (h u) := by
  simp only [handle_command, if_neg hu, if_neg hexit]
  rw [handleCustomCommands_append_of_miss handlers pre _ u (lowerStr u) hpre]
  simp only [handleCustomCommands,
    handleCustomPatterns_eq_some handlers command_type patterns u (lowerStr u) h hh hmatch]

/-- Claim C3 witness: `"time"` is the first command-type with a matching
trigger and a registered handler; the utterance also triggers the
later-declared `"date"`, whose handler is not consulted. -/
theorem first_match_wins_witness :
    handle_command
        ⟨["bye"], [("weather", ["weather"])] ++ ("time", ["time"]) :: [("date", ["date"])]⟩
        [("time", fun _ => "TIME"), ("date", fun _ => "DATE")] "time and date please"
      = some "TIME" :=
  first_match_wins ["bye"] [("weather", ["weather"])] [("date", ["date"])]
    "time" ["time"] [("time", fun _ => "TIME"), ("date", fun _ => "DATE")]
    (fun _ => "TIME") "time and date please"
    (by decide) (by decide) (by decide) (by decide) rfl

/-! ### Turn-processing claims -/

/-- A falsy `handle_command` result (`None` or `""`) sends `process_input`
down the non-command path. -/
theorem process_input_eq_processRest (env : Env ε Ctx) (st : ChatState Ctx)
    (u : String) (l : Option String) (h : commandShortCircuits env u = false) :
    process_input env st u l = processRest env st u l := by
  unfold commandShortCircuits at h
  unfold process_input
  cases hc : handle_command env.cfg.commands env.handlers u with
  | none => rfl
  | some r =>
      rw [hc] at h
      simp only [decide_eq_false_iff_not, not_not] at h
      subst h
      simp

/-- The non-command path appends the pivot-normalized utterance and trims,
whether or not generation succeeds. -/
theorem processRest_conversation_history (env : Env ε Ctx) (st : ChatState Ctx)
    (u : String) (l : Option String) :
    (processRest env st u l).2.conversation_history
      = trimHistory env.cfg.max_history
          (st.conversation_history ++ [normalizedInput env u l]) := by
  unfold processRest normalizedInput
  cases hg : env.gen st.chat_history_ids (detectedAndNormalized env u l).2 with
  | error e => simp [hg]
  | ok pr =>
      obtain ⟨reply, ctx2⟩ := pr
      simp [hg]

/-- A raised generation error is the turn's result. -/
theorem processRest_error (env : Env ε Ctx) (st : ChatState Ctx) (u : String)
    (l : Option String) (e : ε)
    (hg : env.gen st.chat_history_ids (normalizedInput env u l) = Except.error e) :
    (processRest env st u l).1 = Except.error e := by
  unfold processRest
  unfold normalizedInput at hg
  simp [hg]

/-- A successful generation yields the back-translated reply, the trimmed
history and the updated carry-over context. -/
theorem processRest_ok (env : Env ε Ctx) (st : ChatState Ctx) (u : String)
    (l : Option String) (reply : String) (ctx2 : Ctx)
    (hg : env.gen st.chat_history_ids (normalizedInput env u l) = Except.ok (reply, ctx2)) :
    processRest env st u l
      = (Except.ok (finishResponse env (detectedAndNormalized env u l).1 reply),
         ⟨trimHistory env.cfg.max_history
            (st.conversation_history ++ [normalizedInput env u l]), some ctx2⟩) := by
  unfold processRest
  unfold normalizedInput at hg ⊢
  simp [hg]

/-- Claim C2 counterexample. The registered `"time"` handler outputs `""`:
`handle_command` does return a command response, yet `process_input` does not
return it — the turn runs the full pipeline, mutating the history and
answering with the generation backend's reply. -/
theorem command_short_circuit_counterexample :
    handle_command envEmptyHandler.cfg.commands envEmptyHandler.handlers "time" = some ""
    ∧ process_input envEmptyHandler ⟨[], none⟩ "time" none
        = (Except.ok "GEN", ⟨["time"], some 1⟩) :=
  ⟨rfl, rfl⟩

/-- Claim C2 (corrected: the command response must be non-empty — Python's
truthiness test `if command_response:` lets a handler output of `""` fall
through to the generative pipeline, see the counterexample).  A non-empty
command response is returned immediately with the state untouched, for every
generation backend and translator (so neither is invoked). -/
theorem command_short_circuit (env : Env ε Ctx) (st : ChatState Ctx) (u : String)
    (l : Option String) (r : String)
    (hr : handle_command env.cfg.commands env.handlers u = some r) (hne : r ≠ "") :
    process_input env st u l = (Except.ok r, st) := by
  unfold process_input
  rw [hr]
  simp [hne]

/-- Claim C2 witness: a turn matching the `"time"` command returns the
handler's reply and leaves history and generation context untouched. -/
theorem command_short_circuit_witness :
    process_input envTimeHandler ⟨["hello"], some 9⟩ "what time is it" none
      = (Except.ok "TIME", ⟨["hello"], some 9⟩) :=
  command_short_circuit envTimeHandler ⟨["hello"], some 9⟩ "what time is it" none
    "TIME" (by decide) (by decide)

/-- Claim C9 (confirmed). A command response equal to `""` does not
short-circuit: `process_input` takes the non-command path, the (normalized)
utterance is appended to the trimmed history, and on generation success the
turn answers with the (back-translated) generated reply, not the handler's
output. -/
theorem empty_command_response_not_short_circuit (env : Env ε Ctx) (st : ChatState Ctx)
    (u : String) (l : Option String)
    (h : handle_command env.cfg.commands env.handlers u = some "") :
    process_input env st u l = processRest env st u l
    ∧ (process_input env st u l).2.conversation_history
        = trimHistory env.cfg.max_history
            (st.conversation_history ++ [normalizedInput env u l])
    ∧ ∀ reply ctx2,
        env.gen st.chat_history_ids (normalizedInput env u l) = Except.ok (reply, ctx2) →
        (process_input env st u l).1
          = Except.ok (finishResponse env (detectedAndNormalized env u l).1 reply) := by
  have heq : process_input env st u l = processRest env st u l := by
    unfold process_input
    rw [h]
    simp
  refine ⟨heq, ?_, ?_⟩
  · rw [heq]
    exact processRest_conversation_history env st u l
  · intro reply ctx2 hg
    rw [heq, processRest_ok env st u l reply ctx2 hg]

/-- Claim C9 witness: the `"time"` handler outputs `""`; the turn appends the
utterance and returns the backend's `"GEN"` reply. -/
theorem empty_command_response_not_short_circuit_witness :
    process_input envEmptyHandler ⟨[], none⟩ "time" none
        = processRest envEmptyHandler ⟨[], none⟩ "time" none
    ∧ (process_input envEmptyHandler ⟨[], none⟩ "time" none).2.conversation_history
        = trimHistory envEmptyHandler.cfg.max_history
            (([] : List String) ++ [normalizedInput envEmptyHandler "time" none])
    ∧ (process_input envEmptyHandler ⟨[], none⟩ "time" none).1
        = Except.ok (finishResponse envEmptyHandler
            (detectedAndNormalized envEmptyHandler "time" none).1 "GEN") :=
  ⟨(empty_command_response_not_short_circuit envEmptyHandler ⟨[], none⟩ "time" none
      (by decide)).1,
   (empty_command_response_not_short_circuit envEmptyHandler ⟨[], none⟩ "time" none
      (by decide)).2.1,
   (empty_command_response_not_short_circuit envEmptyHandler ⟨[], none⟩ "time" none
      (by decide)).2.2 "GEN" 1 rfl⟩

/-- Claim C4 (confirmed). On a non-command turn whose generation backend
raises, `process_input` propagates exactly that error as its result: no
reply text is fabricated. -/
theorem generation_error_propagates (env : Env ε Ctx) (st : ChatState Ctx)
    (u : String) (l : Option String) (e : ε)
    (hnc : commandShortCircuits env u = false)
    (hg : env.gen st.chat_history_ids (normalizedInput env u l) = Except.error e) :
    (process_input env st u l).1 = Except.error e := by
  rw [process_input_eq_processRest env st u l hnc]
  exact processRest_error env st u l e hg

/-- Claim C4 witness: a backend that raises error `7` makes the turn result
exactly that error. -/
theorem generation_error_propagates_witness :
    (process_input envGenFail ⟨[], none⟩ "hello" none).1 = Except.error 7 :=
  generation_error_propagates envGenFail ⟨[], none⟩ "hello" none 7 (by decide) rfl

/-- `lastK` keeps `min (length) k` elements. -/
theorem lastK_length (k : Nat) (l : List α) : (lastK k l).length = min l.length k := by
  simp only [lastK, List.length_drop]
  omega

/-- For `k ≥ 1`, the source's append-then-trim step preserves the
"last `k` of everything appended so far" invariant. -/
theorem trimHistory_lastK (k : Nat) (hk : 1 ≤ k) (L : List String) (x : String) :
    trimHistory k (lastK k L ++ [x]) = lastK k (L ++ [x]) := by
  unfold trimHistory lastK
  rcases Nat.lt_or_ge L.length k with hlt | hge
  · have h1 : L.length - k = 0 := by omega
    have h2 : ¬ (L.drop (L.length - k) ++ [x]).length > k := by
      simp only [List.length_append, List.length_drop, List.length_cons, List.length_nil]
      omega
    have h3 : (L ++ [x]).length - k = 0 := by
      simp only [List.length_append, List.length_cons, List.length_nil]
      omega
    rw [if_neg h2, h1, h3, List.drop_zero, List.drop_zero]
  · have h2 : (L.drop (L.length - k) ++ [x]).length > k := by
      simp only [List.length_append, List.length_drop, List.length_cons, List.length_nil]
      omega
    rw [if_pos h2, if_neg (by omega : ¬ k = 0)]
    have h4 : (L.drop (L.length - k) ++ [x]).length - k = 1 := by
      simp only [List.length_append, List.length_drop, List.length_cons, List.length_nil]
      omega
    have h5 : (L ++ [x]).length - k = L.length - k + 1 := by
      simp only [List.length_append, List.length_cons, List.length_nil]
      omega
    rw [h4, h5,
      List.drop_append_of_le_length
        (by simp only [List.length_drop]; omega : 1 ≤ (L.drop (L.length - k)).length),
      List.drop_append_of_le_length (by omega : L.length - k + 1 ≤ L.length),
      List.drop_drop]

/-- A non-command turn appends its normalized utterance and trims. -/
theorem process_input_history_step (env : Env ε Ctx) (st : ChatState Ctx)
    (u : String) (l : Option String) (h : commandShortCircuits env u = false) :
    (process_input env st u l).2.conversation_history
      = trimHistory env.cfg.max_history
          (st.conversation_history ++ [normalizedInput env u l]) := by
  rw [process_input_eq_processRest env st u l h]
  exact processRest_conversation_history env st u l

/-- Invariant of a session of non-command turns: the history is the last
`max_history` elements of everything appended so far (for `max_history ≥ 1`). -/
theorem runTurns_history_aux (env : Env ε Ctx) (hk : 1 ≤ env.cfg.max_history)
    (turns : List (String × Option String)) :
    ∀ (st : ChatState Ctx) (L : List String),
      st.conversation_history = lastK env.cfg.max_history L →
      (∀ t ∈ turns, commandShortCircuits env t.1 = false) →
      (runTurns env st turns).conversation_history
        = lastK env.cfg.max_history
            (L ++ turns.map fun t => normalizedInput env t.1 t.2) := by
  induction turns with
  | nil =>
      intro st L hst _
      simpa using hst
  | cons t ts ih =>
      intro st L hst hnc
      have hstep := process_input_history_step env st t.1 t.2 (hnc t (List.mem_cons_self t ts))
      rw [hst, trimHistory_lastK env.cfg.max_history hk L (normalizedInput env t.1 t.2)]
        at hstep
      have hrec := ih (process_input env st t.1 t.2).2 (L ++ [normalizedInput env t.1 t.2])
        hstep (fun a ha => hnc a (List.mem_cons_of_mem t ha))
      simp only [runTurns]
      rw [hrec, List.append_assoc]
      simp

/-- Claim C1 (corrected: requires `max_history ≥ 1`.  With `max_history = 0`
the trim `self.conversation_history[-max_history:]` is Python's `[-0:]`
slice, i.e. the whole list, so nothing is ever dropped — see the
counterexample).  For `max_history = k ≥ 1`, a fresh session fed `N`
non-command turns through `process_input` ends with a conversation history
equal to the last `min(N, k)` pivot-normalized utterances in original order,
oldest first; in particular its length is `min(N, k)`. -/
theorem history_bound (env : Env ε Ctx) (turns : List (String × Option String))
    (hk : 1 ≤ env.cfg.max_history)
    (hnc : ∀ t ∈ turns, commandShortCircuits env t.1 = false) :
    (runTurns env ⟨[], none⟩ turns).conversation_history
        = lastK env.cfg.max_history (turns.map fun t => normalizedInput env t.1 t.2)
    ∧ (runTurns env ⟨[], none⟩ turns).conversation_history.length
        = min turns.length env.cfg.max_history := by
  have h0 : (⟨[], none⟩ : ChatState Ctx).conversation_history
      = lastK env.cfg.max_history [] := by
    simp [lastK]
  have hmain := runTurns_history_aux env hk turns ⟨[], none⟩ [] h0 hnc
  simp only [List.nil_append] at hmain
  refine ⟨hmain, ?_⟩
  rw [hmain, lastK_length]
  simp

/-- Claim C1 witness: three turns with `max_history = 2` keep the last two
utterances, length `min 3 2 = 2`. -/
theorem history_bound_witness :
    (runTurns envHist2 ⟨[], none⟩
        [("hello", none), ("how are you", none), ("what is your name", none)]).conversation_history
      = lastK envHist2.cfg.max_history
          ([("hello", (none : Option String)), ("how are you", none),
            ("what is your name", none)].map fun t => normalizedInput envHist2 t.1 t.2)
    ∧ (runTurns envHist2 ⟨[], none⟩
        [("hello", none), ("how are you", none), ("what is your name", none)]).conversation_history.length
      = min 3 envHist2.cfg.max_history :=
  history_bound envHist2
    [("hello", none), ("how are you", none), ("what is your name", none)]
    (by decide) (by decide)

/-- Claim C1 counterexample: with `max_history = 0` a single non-command
turn leaves a history of length `1`, not `min(1, 0) = 0`, because Python's
`[-0:]` slice keeps the whole list. -/
theorem history_bound_counterexample :
    commandShortCircuits envHist0 "hello" = false
    ∧ (runTurns envHist0 ⟨[], none⟩ [("hello", none)]).conversation_history = ["hello"]
    ∧ ((runTurns envHist0 ⟨[], none⟩ [("hello", none)]).conversation_history).length
        ≠ min 1 envHist0.cfg.max_history :=
  ⟨rfl, rfl, by decide⟩

end Jarvis
